import Mathlib

/-!
Shallow embedding of the goa service runtime (service.go): request context,
middleware composition, controller dispatch (HandleFunc), error handlers and
the version registry, together with theorems about their behaviour.

Go conventions are modelled as follows: in-place mutation of the request
context becomes explicit state passing (`Context → Context`), a Go `error`
result becomes `Option GoErr`, nil function fields become `Option`, slices
become lists, and `map[string]V` becomes an association list.
-/

namespace Goa

/-- Modelled from the spec (the error types live outside service.go): an error
value carries a message (its `Error()` text) and is either a validation-kind
error (`BadRequestError`) or not; the dynamic type assertion
`e.(*BadRequestError)` becomes the `isBadRequest` flag. -/
structure GoErr where
  isBadRequest : Bool
  msg : String
  deriving DecidableEq, Repr

/-- Modelled from the spec (the Context type lives outside service.go): the
per-request mutable state, holding a response-status field that starts unset
(zero), the response body, and whether a JSON content-type header was set.
The response status is write-once: `RespondBytes` refuses a second write. -/
structure Context where
  responseStatus : Nat := 0
  responseBody : String := ""
  jsonContentType : Bool := false
  deriving DecidableEq, Repr

/-- `ResponseWritten` reports whether a response was already written. -/
def Context.ResponseWritten (c : Context) : Bool :=
  c.responseStatus != 0

/-- `ResponseStatus` returns the response status, zero when still unset. -/
def Context.ResponseStatus (c : Context) : Nat :=
  c.responseStatus

/-- Modelled from the spec: the Context's single response-write primitive with
write-once semantics — a second write is detected, leaves the context
unchanged and reports an error (which callers in service.go only log). -/
def Context.RespondBytes (c : Context) (status : Nat) (body : String) :
    Context × Option GoErr :=
  if c.responseStatus != 0 then
    (c, some { isBadRequest := false, msg := "response already written" })
  else
    ({ c with responseStatus := status, responseBody := body }, none)

/-- Modelled from the spec: setting the JSON content-type header on the
response (`c.Header().Set("Content-Type", "application/json")`). -/
def Context.setJSONContentType (c : Context) : Context :=
  { c with jsonContentType := true }

/-- `Handler func(*Context) error`: a controller handler takes the request
context and returns an error; context mutation becomes state passing. -/
abbrev Handler := Context → Context × Option GoErr

/-- Modelled from the spec (the Middleware type lives outside service.go):
a middleware is a transformation from a terminal handler to a new handler. -/
abbrev Middleware := Handler → Handler

/-- `ErrorHandler func(*Context, error)`: mutates the context in place. -/
abbrev ErrorHandler := Context → GoErr → Context

/-- Modelled from the spec (ServeMux lives outside service.go): an opaque
routing table, recorded as registered (method, path pattern) pairs. -/
abbrev ServeMux := List (String × String)

/-- `NewMux` returns an empty routing table. -/
def NewMux : ServeMux := []

/-- Modelled from the spec (pools live outside service.go): a decoder pool is
an external collaborator; only its presence in a version's map matters here. -/
structure decoderPool : Type where
  deriving DecidableEq

/-- Modelled from the spec (pools live outside service.go): an encoder pool is
an external collaborator; only its presence in a version's map matters here. -/
structure encoderPool : Type where
  deriving DecidableEq

/-- The `version` struct of service.go: version string, mux, codec pool maps
and the list of encodable content types. -/
structure Version where
  name : String
  mux : ServeMux
  decoderPools : List (String × decoderPool)
  encoderPools : List (String × encoderPool)
  encodableContentTypes : List String
  deriving DecidableEq

/-- The `Application` struct of service.go: name, application error handler
(nil-able function modelled as `Option`), middleware chain and the versions
map (nil map and empty map collapse to the empty association list). -/
structure Application where
  name : String
  errorHandler : Option ErrorHandler := none
  middleware : List Middleware := []
  versions : List (String × Version) := []

/-- The `ApplicationController` struct of service.go: owning application,
optional controller-specific error handler, controller middleware. The Go
field is a pointer to the application; the claims under study never mutate
the application after the controller is created, so a snapshot suffices. -/
structure ApplicationController where
  app : Application
  errorHandler : Option ErrorHandler := none
  middleware : List Middleware := []

/-- `New` instantiates an application with the given name and the default
error handler (service.go lines 204-211). -/
def DefaultErrorHandler : ErrorHandler := fun c e =>
  let p : Context × Nat :=
    if e.isBadRequest then (c.setJSONContentType, 400) else (c, 500)
  (Context.RespondBytes p.1 p.2 e.msg).1

/-- `TerseErrorHandler` behaves like `DefaultErrorHandler` except that the
body stays empty (Go `nil` byte slice) for internal errors. -/
def TerseErrorHandler : ErrorHandler := fun c e =>
  let p : Context × Nat × String :=
    if e.isBadRequest then (c.setJSONContentType, 400, e.msg) else (c, 500, "")
  (Context.RespondBytes p.1 p.2.1 p.2.2).1

/-- `New(name)` builds the application: name set, error handler set to
`DefaultErrorHandler`, everything else zero-valued. -/
def New (name : String) : Application :=
  { name := name, errorHandler := some DefaultErrorHandler }

/-- `Name` returns the application name. -/
def Application.Name (app : Application) : String :=
  app.name

/-- `Application.Use` appends a middleware to the application chain. -/
def Application.Use (app : Application) (m : Middleware) : Application :=
  { app with middleware := app.middleware ++ [m] }

/-- `SetErrorHandler` sets the application-wide error handler. -/
def Application.SetErrorHandler (app : Application) (h : ErrorHandler) :
    Application :=
  { app with errorHandler := some h }

/-- `NewController` returns a fresh controller bound to the application. -/
def Application.NewController (app : Application) (resName : String) :
    ApplicationController :=
  let _ := resName
  { app := app }

/-- `ApplicationController.Use` appends a controller-specific middleware. -/
def ApplicationController.Use (ctrl : ApplicationController)
    (m : Middleware) : ApplicationController :=
  { ctrl with middleware := ctrl.middleware ++ [m] }

/-- `MiddlewareChain` returns `append(ctrl.app.middleware, ctrl.middleware...)`:
the application chain followed by the controller chain. -/
def ApplicationController.MiddlewareChain (ctrl : ApplicationController) :
    List Middleware :=
  ctrl.app.middleware ++ ctrl.middleware

/-- `HandleError` invokes the controller error handler or, if there is none,
the application error handler; with neither set the context is untouched. -/
def ApplicationController.HandleError (ctrl : ApplicationController)
    (ctx : Context) (e : GoErr) : Context :=
  match ctrl.errorHandler with
  | some eh => eh ctx e
  | none =>
    match ctrl.app.errorHandler with
    | some eh => eh ctx e
    | none => ctx

/-- The composition loop of `HandleFunc`:
`for i := range chain { middleware = chain[ml-i-1](middleware) }`,
i.e. a left fold over the reversed chain starting from the inner handler. -/
def composeChain (chain : List Middleware) (inner : Handler) : Handler :=
  chain.reverse.foldl (fun acc m => m acc) inner

theorem composeChain_nil (inner : Handler) :
    composeChain [] inner = inner := rfl

theorem composeChain_cons (m : Middleware) (ms : List Middleware)
    (inner : Handler) :
    composeChain (m :: ms) inner = m (composeChain ms inner) := by
  simp [composeChain, List.foldl_append]

/-- A middleware made of explicit pre-logic and post-logic around the wrapped
handler; used to state the execution-order property of the composed chain. -/
def wrapMW (pre post : Context → Context) : Middleware :=
  fun h ctx =>
    let r := h (pre ctx)
    (post r.1, r.2)

/-- Run the pre-logic of each middleware, first registered first. -/
def runPres : List ((Context → Context) × (Context → Context)) → Context →
    Context
  | [], c => c
  | p :: ps, c => runPres ps (p.1 c)

/-- Run the post-logic of each middleware, last registered first (innermost),
first registered last (outermost). -/
def runPosts : List ((Context → Context) × (Context → Context)) → Context →
    Context
  | [], c => c
  | p :: ps, c => p.2 (runPosts ps c)

/-- The inbound request state HandleFunc's closure inspects: only the body
length matters to the dispatch logic (`r.ContentLength > 0`). -/
structure Request where
  contentLength : Int := 0
  deriving DecidableEq, Repr

/-- `NewContext`: a fresh per-request context, response status unset. -/
def freshContext : Context := {}

/-- The terminal handler built first inside `HandleFunc` (the local
`middleware` closure before wrapping): skip the action if a response was
already written, otherwise run it and route a returned error to
`HandleError`; it always returns nil. -/
def ApplicationController.terminal (ctrl : ApplicationController)
    (h : Handler) : Handler := fun ctx =>
  if ctx.ResponseWritten then (ctx, none)
  else
    match h ctx with
    | (c, some e) => (ctrl.HandleError c e, none)
    | (c, none) => (c, none)

/-- The exact body `HandleFunc` writes for an undecodable payload:
`fmt.Sprintf` with the error rendered through its `Error()` text. -/
def invalidBody (e : GoErr) : String :=
  "\x7b\"kind\":\"invalid request\",\"msg\":\"invalid JSON: " ++ e.msg ++
    "\"\x7d"

/-- The substitute handler `HandleFunc` installs when decoding fails: it
responds 400 with the structured invalid-request body and returns nil. -/
def invalidPayloadHandler (e : GoErr) : Handler := fun ctx =>
  ((ctx.RespondBytes 400 (invalidBody e)).1, none)

/-- The synthetic error of the unhandled-request backstop. -/
def unhandledRequestErr : GoErr :=
  { isBadRequest := false, msg := "unhandled request" }

/-- The body of `HandleFunc`'s returned closure up to and including invoking
the (possibly substituted) composed chain: build a fresh context, run the
decode function when the request has a body, pick the normal composed chain
or — on a decode error — the chain wrapped around the substitute handler,
and run it. -/
def dispatchCore (ctrl : ApplicationController) (h : Handler)
    (d : Option Handler) (r : Request) : Context :=
  let dres : Context × Option GoErr :=
    if r.contentLength > 0 then
      match d with
      | some dd => dd freshContext
      | none => (freshContext, none)
    else (freshContext, none)
  let chain := ctrl.MiddlewareChain
  let handler : Handler :=
    match dres.2 with
    | some e => composeChain chain (invalidPayloadHandler e)
    | none => composeChain chain (ctrl.terminal h)
  (handler dres.1).1

/-- `HandleFunc`'s returned closure: run the chain, then, if no response was
ever written, fire the unhandled-request backstop through `HandleError`.
The `name` argument is used solely for logging in the Go code. -/
def ApplicationController.HandleFunc (ctrl : ApplicationController)
    (name : String) (h : Handler) (d : Option Handler) (r : Request) :
    Context :=
  let _ := name
  let c := dispatchCore ctrl h d r
  if c.ResponseStatus = 0 then ctrl.HandleError c unhandledRequestErr else c

/-- C1: The composed handler is the fold from the last chain element to the
first, so the first-registered middleware is outermost; invoking it on a
middleware sequence with pre/post logic runs all pre-logic in registration
order, then the terminal handler, then all post-logic in reverse order. -/
theorem composed_chain_registration_order
    (ps : List ((Context → Context) × (Context → Context)))
    (t : Handler) (ctx : Context) :
    (∀ (m : Middleware) (ms : List Middleware) (inner : Handler),
        composeChain (m :: ms) inner = m (composeChain ms inner)) ∧
    composeChain (ps.map fun p => wrapMW p.1 p.2) t ctx =
      (runPosts ps (t (runPres ps ctx)).1, (t (runPres ps ctx)).2) := by
  refine ⟨fun m ms inner => composeChain_cons m ms inner, ?_⟩
  induction ps generalizing ctx with
  | nil => simp [composeChain, runPres, runPosts]
  | cons p ps ih =>
    rw [List.map_cons, composeChain_cons]
    simp only [wrapMW, runPres, runPosts]
    rw [ih]

/-- C4: inside the terminal handler, when no response has been written yet
and the action returns an error, the error goes to `HandleError`, which
routes it to the controller handler if set, else the application handler,
and does nothing when neither exists. -/
theorem terminal_routes_action_error
    (ctrl : ApplicationController) (h : Handler) (ctx c : Context)
    (e : GoErr) (hw : ctx.ResponseWritten = false)
    (hh : h ctx = (c, some e)) :
    ctrl.terminal h ctx = (ctrl.HandleError c e, none) ∧
    (∀ f, ctrl.errorHandler = some f → ctrl.HandleError c e = f c e) ∧
    (ctrl.errorHandler = none →
      ∀ g, ctrl.app.errorHandler = some g → ctrl.HandleError c e = g c e) ∧
    (ctrl.errorHandler = none → ctrl.app.errorHandler = none →
      ctrl.HandleError c e = c) := by
  refine ⟨?_, ?_, ?_, ?_⟩
  · simp [ApplicationController.terminal, hw, hh]
  · intro f hf
    simp [ApplicationController.HandleError, hf]
  · intro hn g hg
    simp [ApplicationController.HandleError, hn, hg]
  · intro hn hgn
    simp [ApplicationController.HandleError, hn, hgn]

/-- An action that succeeds without writing anything. -/
def noopAction : Handler := fun c => (c, none)

/-- An action that fails with an internal "boom" error. -/
def boomErr : GoErr := { isBadRequest := false, msg := "boom" }

/-- An action returning `boomErr` without touching the context. -/
def boomAction : Handler := fun c => (c, some boomErr)

/-- A bare controller on a freshly created application. -/
def plainCtrl : ApplicationController :=
  (New "svc").NewController "res"

/-- Witness for C4 at a bare controller, a fresh context and `boomAction`. -/
theorem terminal_routes_action_error_witness :
    (freshContext.ResponseWritten = false ∧
      boomAction freshContext = (freshContext, some boomErr)) ∧
    (plainCtrl.terminal boomAction freshContext =
        (plainCtrl.HandleError freshContext boomErr, none) ∧
      (∀ f, plainCtrl.errorHandler = some f →
        plainCtrl.HandleError freshContext boomErr = f freshContext boomErr) ∧
      (plainCtrl.errorHandler = none →
        ∀ g, plainCtrl.app.errorHandler = some g →
          plainCtrl.HandleError freshContext boomErr =
            g freshContext boomErr) ∧
      (plainCtrl.errorHandler = none → plainCtrl.app.errorHandler = none →
        plainCtrl.HandleError freshContext boomErr = freshContext)) :=
  ⟨⟨rfl, rfl⟩,
    terminal_routes_action_error plainCtrl boomAction freshContext
      freshContext boomErr rfl rfl⟩

/-- C3: after the composed chain returns, if the response status is still
unset the dispatcher invokes `HandleError` with the synthetic "unhandled
request" error; with the default application error handler still in place
this produces a response, so the status ends up nonzero. -/
theorem unhandled_request_backstop
    (ctrl : ApplicationController) (nm : String) (h : Handler)
    (d : Option Handler) (r : Request)
    (hz : (dispatchCore ctrl h d r).ResponseStatus = 0) :
    ctrl.HandleFunc nm h d r =
      ctrl.HandleError (dispatchCore ctrl h d r) unhandledRequestErr ∧
    (ctrl.errorHandler = none →
      ctrl.app.errorHandler = some DefaultErrorHandler →
      (ctrl.HandleFunc nm h d r).ResponseStatus ≠ 0) := by
  have hb : ctrl.HandleFunc nm h d r =
      ctrl.HandleError (dispatchCore ctrl h d r) unhandledRequestErr := by
    simp [ApplicationController.HandleFunc, hz]
  refine ⟨hb, fun hn hg => ?_⟩
  rw [hb]
  simp only [Context.ResponseStatus] at hz
  simp [ApplicationController.HandleError, hn, hg, DefaultErrorHandler,
    unhandledRequestErr, Context.RespondBytes, Context.ResponseStatus, hz]

/-- A request with no body. -/
def emptyReq : Request := {}

/-- Witness for C3: a bare controller whose action writes nothing and
returns no error, on a bodyless request. -/
theorem unhandled_request_backstop_witness :
    (dispatchCore plainCtrl noopAction none emptyReq).ResponseStatus = 0 ∧
    (plainCtrl.HandleFunc "act" noopAction none emptyReq =
      plainCtrl.HandleError (dispatchCore plainCtrl noopAction none emptyReq)
        unhandledRequestErr ∧
    (plainCtrl.errorHandler = none →
      plainCtrl.app.errorHandler = some DefaultErrorHandler →
      (plainCtrl.HandleFunc "act" noopAction none emptyReq).ResponseStatus ≠
        0)) :=
  ⟨rfl, unhandled_request_backstop plainCtrl "act" noopAction none emptyReq
    rfl⟩

/-- A decode function failing with `boomErr`. -/
def boomDecode : Handler := fun c => (c, some boomErr)

/-- A request with a nonempty body. -/
def bodyReq : Request := { contentLength := 1 }

/-- C2 counterexample: with decode error text "boom" the body written is
prefixed with "invalid JSON: ", so it is not the bare decode error text the
claim states. -/
theorem decode_error_body_cex :
    (plainCtrl.HandleFunc "act" noopAction (some boomDecode)
        bodyReq).responseStatus = 400 ∧
    (plainCtrl.HandleFunc "act" noopAction (some boomDecode)
        bodyReq).responseBody ≠
      "\x7b\"kind\":\"invalid request\",\"msg\":\"boom\"\x7d" ∧
    (plainCtrl.HandleFunc "act" noopAction (some boomDecode)
        bodyReq).responseBody =
      "\x7b\"kind\":\"invalid request\",\"msg\":\"invalid JSON: boom\"\x7d" := by
  refine ⟨rfl, ?_, rfl⟩
  decide

/-- C2 (amended): on a request with a body whose decode function fails, the
dispatcher runs the full middleware chain wrapped around the substitute
handler instead of the action (the result does not mention the action at
all), and the substitute handler writes status 400 with body exactly
`\x7b"kind":"invalid request","msg":"invalid JSON: <decode error text>"\x7d`. -/
theorem decode_error_substitute_chain
    (ctrl : ApplicationController) (h dd : Handler) (r : Request)
    (c1 : Context) (e : GoErr) (hcl : r.contentLength > 0)
    (hd : dd freshContext = (c1, some e)) :
    dispatchCore ctrl h (some dd) r =
      (composeChain ctrl.MiddlewareChain (invalidPayloadHandler e) c1).1 ∧
    (∀ c : Context, c.responseStatus = 0 →
      invalidPayloadHandler e c =
        ({ c with responseStatus := 400, responseBody := invalidBody e },
          none)) ∧
    invalidBody e =
      "\x7b\"kind\":\"invalid request\",\"msg\":\"invalid JSON: " ++ e.msg ++
        "\"\x7d" := by
  refine ⟨?_, fun c hc => ?_, rfl⟩
  · simp [dispatchCore, hcl, hd]
  · simp [invalidPayloadHandler, Context.RespondBytes, hc]

/-- Witness for C2 (amended) at a bare controller and a failing decode. -/
theorem decode_error_substitute_chain_witness :
    (bodyReq.contentLength > 0 ∧
      boomDecode freshContext = (freshContext, some boomErr)) ∧
    (dispatchCore plainCtrl noopAction (some boomDecode) bodyReq =
        (composeChain plainCtrl.MiddlewareChain
          (invalidPayloadHandler boomErr) freshContext).1 ∧
      (∀ c : Context, c.responseStatus = 0 →
        invalidPayloadHandler boomErr c =
          ({ c with
              responseStatus := 400,
              responseBody := invalidBody boomErr }, none)) ∧
      invalidBody boomErr =
        "\x7b\"kind\":\"invalid request\",\"msg\":\"invalid JSON: " ++
          boomErr.msg ++ "\"\x7d") :=
  ⟨⟨by decide, rfl⟩,
    decode_error_substitute_chain plainCtrl noopAction boomDecode bodyReq
      freshContext boomErr (by decide) rfl⟩

/-- C5: the verbose strategy responds 400 with a JSON content-type header and
the message as body on validation errors, 500 with the message as body
otherwise; the terse strategy classifies identically but leaves the 500 body
empty. -/
theorem error_handlers_classification (c : Context) (e : GoErr)
    (hw : c.responseStatus = 0) :
    (e.isBadRequest = true →
      DefaultErrorHandler c e =
        { c with
            jsonContentType := true,
            responseStatus := 400,
            responseBody := e.msg } ∧
      TerseErrorHandler c e =
        { c with
            jsonContentType := true,
            responseStatus := 400,
            responseBody := e.msg }) ∧
    (e.isBadRequest = false →
      DefaultErrorHandler c e =
        { c with responseStatus := 500, responseBody := e.msg } ∧
      TerseErrorHandler c e =
        { c with responseStatus := 500, responseBody := "" }) := by
  constructor
  · intro hb
    constructor
    · simp [DefaultErrorHandler, hb, Context.setJSONContentType,
        Context.RespondBytes, hw]
    · simp [TerseErrorHandler, hb, Context.setJSONContentType,
        Context.RespondBytes, hw]
  · intro hb
    constructor
    · simp [DefaultErrorHandler, hb, Context.RespondBytes, hw]
    · simp [TerseErrorHandler, hb, Context.RespondBytes, hw]

/-- Witness for C5 at a fresh context and the internal error `boomErr`. -/
theorem error_handlers_classification_witness :
    freshContext.responseStatus = 0 ∧
    ((boomErr.isBadRequest = true →
      DefaultErrorHandler freshContext boomErr =
        { freshContext with
            jsonContentType := true,
            responseStatus := 400,
            responseBody := boomErr.msg } ∧
      TerseErrorHandler freshContext boomErr =
        { freshContext with
            jsonContentType := true,
            responseStatus := 400,
            responseBody := boomErr.msg }) ∧
    (boomErr.isBadRequest = false →
      DefaultErrorHandler freshContext boomErr =
        { freshContext with
            responseStatus := 500,
            responseBody := boomErr.msg } ∧
      TerseErrorHandler freshContext boomErr =
        { freshContext with responseStatus := 500, responseBody := "" })) :=
  ⟨rfl, error_handlers_classification freshContext boomErr rfl⟩

theorem application_use_foldl (app : Application) (ms : List Middleware) :
    (ms.foldl Application.Use app).middleware = app.middleware ++ ms := by
  induction ms generalizing app with
  | nil => simp
  | cons m ms ih => simp [Application.Use, ih]

theorem controller_use_foldl (ctrl : ApplicationController)
    (ms : List Middleware) :
    (ms.foldl ApplicationController.Use ctrl).middleware =
        ctrl.middleware ++ ms ∧
      (ms.foldl ApplicationController.Use ctrl).app = ctrl.app := by
  induction ms generalizing ctrl with
  | nil => simp
  | cons m ms ih => simp [ApplicationController.Use, (ih _).1, (ih _).2]

/-- C6: after registering `svcMs` on the application and `ctrlMs` on the
controller through the respective `Use` methods, `MiddlewareChain` is the
application middleware followed by the controller middleware, each in
registration order. -/
theorem middleware_chain_order (name resName : String)
    (svcMs ctrlMs : List Middleware) :
    (ctrlMs.foldl ApplicationController.Use
        ((svcMs.foldl Application.Use (New name)).NewController
          resName)).MiddlewareChain = svcMs ++ ctrlMs := by
  simp [ApplicationController.MiddlewareChain, (controller_use_foldl _ _).1,
    (controller_use_foldl _ _).2, Application.NewController,
    application_use_foldl, New]

/-- `newVersion` creates a version with the given name, a fresh mux and the
empty codec pool maps, records it in the versions map and returns it. -/
def Application.newVersion (app : Application) (name : String) :
    Version × Application :=
  let v : Version :=
    { name := name, mux := NewMux, decoderPools := [], encoderPools := [],
      encodableContentTypes := [] }
  (v, { app with versions := (name, v) :: app.versions })

/-- `GetVersion` looks the name up in the versions map (a nil map behaves as
an empty one), returning the stored version or creating a new one. -/
def Application.GetVersion (app : Application) (name : String) :
    Version × Application :=
  match app.versions.lookup name with
  | some v => (v, app)
  | none => app.newVersion name

/-- The Version a fresh `newVersion` call builds for `name`. -/
def emptyVersion (name : String) : Version :=
  { name := name, mux := NewMux, decoderPools := [], encoderPools := [],
    encodableContentTypes := [] }

/-- C7: `GetVersion` returns the stored version unchanged when one exists,
otherwise creates, stores and returns a version with empty routing table,
empty codec pools and no encodable content types; a second call with the
same name returns the same version without further change, and no existing
version is ever removed from the map. -/
theorem getVersion_spec (app : Application) (name : String) :
    (∀ v, app.versions.lookup name = some v →
      app.GetVersion name = (v, app)) ∧
    (app.versions.lookup name = none →
      (app.GetVersion name).1 = emptyVersion name ∧
      ((app.GetVersion name).2).versions.lookup name =
        some (app.GetVersion name).1) ∧
    (((app.GetVersion name).2).GetVersion name).1 = (app.GetVersion name).1 ∧
    (((app.GetVersion name).2).GetVersion name).2 = (app.GetVersion name).2 ∧
    (∀ m v, app.versions.lookup m = some v →
      ((app.GetVersion name).2).versions.lookup m = some v) := by
  refine ⟨fun v hv => ?_, fun hn => ?_, ?_, ?_, fun m v hv => ?_⟩
  · simp [Application.GetVersion, hv]
  · simp [Application.GetVersion, hn, Application.newVersion, emptyVersion]
  · cases hl : app.versions.lookup name with
    | some v => simp [Application.GetVersion, hl]
    | none => simp [Application.GetVersion, hl, Application.newVersion]
  · cases hl : app.versions.lookup name with
    | some v => simp [Application.GetVersion, hl]
    | none => simp [Application.GetVersion, hl, Application.newVersion]
  · cases hl : app.versions.lookup name with
    | some v' => simp [Application.GetVersion, hl, hv]
    | none =>
      simp only [Application.GetVersion, hl, Application.newVersion]
      have hne : (m == name) = false := by
        rcases h : m == name with _ | _
        · rfl
        · rw [show m = name from by simpa using h, hl] at hv
          exact absurd hv (by simp)
      simp [List.lookup, hne, hv]

/-- Modelled from the spec: the mount-time disk check (`os.Stat`);
`fs.statErr filename = some text` when the file does not exist on disk at
mount time (the stat fails), `none` when it exists. -/
structure FileSystem where
  statErr : String → Option String

/-- `ServeFiles`: reject a path containing ':' (a partial, non-terminal
wildcard), then reject a filename whose stat fails, otherwise register a GET
handler for the path on the mux and succeed. The mux stands for the
application's `ServeMux()`; `Handle` (outside service.go) is modelled from
the spec as recording the (method, path pattern) pair. -/
def ServeFiles (fs : FileSystem) (mux : ServeMux) (path filename : String) :
    Except String ServeMux :=
  if path.contains ':' then
    .error
      "path may only include wildcards that match the entire end of the URL"
  else
    match fs.statErr filename with
    | some text => .error ("ServeFiles: " ++ text)
    | none => .ok (mux ++ [("GET", path)])

/-- C9: `ServeFiles` succeeds exactly when the path has no partial wildcard
(no ':') and the filename exists on disk; on success the registered routes
are the old ones plus a GET route for the path, and on failure the call
produces only an error, registering nothing. -/
theorem serveFiles_spec (fs : FileSystem) (mux : ServeMux)
    (path filename : String) :
    ((∃ m, ServeFiles fs mux path filename = .ok m) ↔
      (path.contains ':' = false ∧ fs.statErr filename = none)) ∧
    (path.contains ':' = false → fs.statErr filename = none →
      ServeFiles fs mux path filename = .ok (mux ++ [("GET", path)])) ∧
    ((path.contains ':' = true ∨ (∃ t, fs.statErr filename = some t)) →
      ∃ msg, ServeFiles fs mux path filename = .error msg) := by
  refine ⟨⟨fun hok => ?_, fun hyes => ?_⟩, fun hc hs => ?_, fun hbad => ?_⟩
  · rcases hok with ⟨m, hm⟩
    cases hc : path.contains ':' with
    | true => simp [ServeFiles, hc] at hm
    | false =>
      cases hs : fs.statErr filename with
      | some t => simp [ServeFiles, hc, hs] at hm
      | none => exact ⟨rfl, rfl⟩
  · exact ⟨mux ++ [("GET", path)], by simp [ServeFiles, hyes.1, hyes.2]⟩
  · simp [ServeFiles, hc, hs]
  · rcases hbad with hc | ⟨t, ht⟩
    · exact
        ⟨"path may only include wildcards that match the entire end of the URL",
          by simp [ServeFiles, hc]⟩
    · cases hc : path.contains ':' with
      | true =>
        exact
          ⟨"path may only include wildcards that match the entire end of the URL",
            by simp [ServeFiles, hc]⟩
      | false => exact ⟨"ServeFiles: " ++ t, by simp [ServeFiles, hc, ht]⟩

/-- C10: `New` sets the application name and installs `DefaultErrorHandler`
as the service-wide handler, so a fresh controller with no handler of its
own already routes errors through the verbose strategy. -/
theorem new_defaults (name resName : String) (ctx : Context) (e : GoErr) :
    (New name).Name = name ∧
    (New name).errorHandler = some DefaultErrorHandler ∧
    ((New name).NewController resName).errorHandler = none ∧
    ((New name).NewController resName).HandleError ctx e =
      DefaultErrorHandler ctx e := by
  refine ⟨rfl, rfl, rfl, rfl⟩

end Goa
